import Mathlib

/-!
Shallow embedding of the settings-resolution engine of `msgspec_ext/settings.py`
(class `BaseSettings` and its configuration record `SettingsConfigDict`).

Python runtime values flowing through the engine are modelled by the inductive
type `Value` (`None`, `bool`, `int`, `str`, `list`, `dict`).  Machine-level
floating point and nested msgspec `Struct` targets are outside the model; the
claims under study only exercise the `bool`/`int`/`str`/`list`/`dict` branches
of the coercer.  Python dictionaries are modelled as association lists where
the first matching key wins, so the dict-merge `{**a, **b}` (later mapping
overrides) is `b ++ a` under first-match lookup.
-/

namespace MsgspecExt

/-- A Python runtime value as seen by the settings engine. -/
inductive Value where
  | vNone : Value
  | vBool : Bool → Value
  | vInt : Int → Value
  | vStr : String → Value
  | vList : List Value → Value
  | vDict : List (String × Value) → Value

/-- Type annotations the coercer dispatches on (`_convert_env_value` branches):
`bool`, `int` / `typing.Optional[int]`, `str` (also the fallback branch that
returns the raw string unchanged), `list` / `typing.List[...]`,
`dict` / `typing.Dict[...]`. -/
inductive FType where
  | fBool : FType
  | fInt : FType
  | fOptionalInt : FType
  | fStr : FType
  | fList : FType
  | fDict : FType
deriving DecidableEq, Repr

/-- The class-level attribute found for an annotated field name in
`_get_fields_info`: either no attribute (`hasattr` false), a plain default
value, or a `msgspec.inspect.Field` carrying an optional external name, an
optional default and an optional zero-argument default factory. -/
inductive ClassAttr where
  | noAttr : ClassAttr
  | plain : Value → ClassAttr
  | fieldSpec : Option String → Option Value → Option (Unit → Value) → ClassAttr

/-- `SettingsConfigDict` (the naming policy).  `envPref` is the source's
`env_prefix`; `envFile`, `envFileEncoding` and `envNestedDelim` play no role
in resolution (the env-file loader is an external side effect). -/
structure SettingsConfigDict where
  envFile : Option String
  envFileEncoding : String
  caseSensitive : Bool
  envPref : String
  envNestedDelim : String
deriving DecidableEq, Repr

/-- The default `SettingsConfigDict()`. -/
def defaultConfig : SettingsConfigDict :=
  ⟨none, "utf-8", false, "", "__"⟩

/-- A settings type: its `model_config` and its `__annotations__` in
declaration order, each annotated name paired with its declared type and the
class-level attribute found under that name. -/
structure SettingsType where
  config : SettingsConfigDict
  annotations : List (String × FType × ClassAttr)

/-- Field metadata assembled by `_get_fields_info` for one field. -/
structure FieldInfo where
  ftype : FType
  extName : String
  hasDefault : Bool
  default : Value
  hasDefaultFactory : Bool
  defaultFactory : Option (Unit → Value)

/-- First-match association-list lookup (Python `dict` lookup; keys are
unique in a real Python dict, so first match is the dict's single match). -/
def lookupStr {α : Type} : List (String × α) → String → Option α
  | [], _ => none
  | (k, v) :: rest, key => if k = key then some v else lookupStr rest key

/-- Python `dict.get(key)`: the stored value, or `None` when absent. -/
def dictGet (d : List (String × Value)) (key : String) : Value :=
  (lookupStr d key).getD Value.vNone

/-- The association list with every entry for one key dropped (used to state
that a construction treats a given keyword argument as if it were omitted). -/
def removeKey (d : List (String × Value)) (f : String) : List (String × Value) :=
  match d with
  | [] => []
  | (k, v) :: rest => if k = f then removeKey rest f else (k, v) :: removeKey rest f

/-- One entry of `_get_fields_info`: metadata for field `fname` with declared
type `ftype` and class attribute `attr`.  For a `msgspec` `Field`, the
external name is `field_value.name or field_name` (Python `or`: an empty
string also falls back to the declared name). -/
def mkFieldInfo (fname : String) (ftype : FType) (attr : ClassAttr) : FieldInfo :=
  match attr with
  | ClassAttr.fieldSpec nm df dff =>
      ⟨ftype,
       (match nm with
        | some s => if s = "" then fname else s
        | none => fname),
       df.isSome, df.getD Value.vNone, dff.isSome, dff⟩
  | ClassAttr.plain v => ⟨ftype, fname, true, v, false, none⟩
  | ClassAttr.noAttr => ⟨ftype, fname, false, Value.vNone, false, none⟩

/-- `_get_fields_info`: catalog every annotated field except `model_config`. -/
def getFieldsInfo (annotations : List (String × FType × ClassAttr)) :
    List (String × FieldInfo) :=
  match annotations with
  | [] => []
  | (fname, ftype, attr) :: rest =>
      if fname = "model_config" then getFieldsInfo rest
      else (fname, mkFieldInfo fname ftype attr) :: getFieldsInfo rest

/-- Python `str.upper()` (ASCII identifiers in practice). -/
def pyUpper (s : String) : String :=
  String.mk (s.data.map Char.toUpper)

/-- Python `str.lower()` (ASCII identifiers in practice). -/
def pyLower (s : String) : String :=
  String.mk (s.data.map Char.toLower)

/-- Python string whitespace (`str.strip()` targets). -/
def isPyWs (c : Char) : Bool :=
  c = ' ' ∨ c = '\t' ∨ c = '\n' ∨ c = '\r' ∨ c = '\x0b' ∨ c = '\x0c'

/-- Python `str.strip()`: drop whitespace from both ends. -/
def pyStrip (s : String) : String :=
  String.mk (((s.data.dropWhile isPyWs).reverse.dropWhile isPyWs).reverse)

/-- Splitting a character list on a separator; an empty input yields one
empty piece, matching Python `str.split(sep)`. -/
def splitOnChar (sep : Char) : List Char → List (List Char)
  | [] => [[]]
  | c :: rest =>
      match splitOnChar sep rest with
      | [] => if c = sep then [[], []] else [[c]]
      | h :: t => if c = sep then [] :: h :: t else (c :: h) :: t

/-- Python `value.split(",")`. -/
def pySplitComma (s : String) : List String :=
  (splitOnChar ',' s.data).map String.mk

/-- Whether `pat` is an initial run of `target`. -/
def charsStart : List Char → List Char → Bool
  | [], _ => true
  | _ :: _, [] => false
  | a :: as, b :: bs => a = b && charsStart as bs

/-- Python `s.startswith(pat)`. -/
def pyStartsWith (s pat : String) : Bool :=
  charsStart pat.data s.data

/-- Python `s.endswith(pat)`. -/
def pyEndsWith (s pat : String) : Bool :=
  charsStart pat.data.reverse s.data.reverse

/-- Membership of a string in a list of strings. -/
def listContainsStr (l : List String) (s : String) : Bool :=
  match l with
  | [] => false
  | x :: rest => x = s || listContainsStr rest s

/-- `_get_env_name`: start from the field's external name, upper-case it when
the policy is not case-sensitive, then prepend the (non-empty) prefix. -/
def getEnvName (cfg : SettingsConfigDict) (fi : FieldInfo) : String :=
  let name := fi.extName
  let name := if cfg.caseSensitive then name else pyUpper name
  if cfg.envPref ≠ "" then cfg.envPref ++ name else name

/-- Digit run of a Python `int()` literal after the sign: digits with single
underscores allowed strictly between digits. -/
def intDigits : List Char → Bool
  | [] => true
  | '_' :: c :: rest => c.isDigit && intDigits rest
  | c :: rest => c.isDigit && intDigits rest

/-- Numeric value of a digit run (underscores already filtered out). -/
def digitsToNat (cs : List Char) : Nat :=
  cs.foldl (fun acc c => acc * 10 + (c.toNat - '0'.toNat)) 0

/-- Python `int(s)`: strip surrounding whitespace, optional sign, then a
non-empty underscore-grouped digit run; anything else raises `ValueError`. -/
def pyParseInt (s : String) : Except String Int :=
  let t := pyStrip s
  let core : List Char :=
    match t.toList with
    | '+' :: rest => rest
    | '-' :: rest => rest
    | cs => cs
  let neg : Bool :=
    match t.toList with
    | '-' :: _ => true
    | _ => false
  match core with
  | [] => Except.error ("invalid literal for int() with base 10: '" ++ s ++ "'")
  | c :: rest =>
      if c.isDigit && intDigits rest then
        let n : Nat := digitsToNat ((c :: rest).filter (fun d => d ≠ '_'))
        Except.ok (if neg then -(n : Int) else (n : Int))
      else
        Except.error ("invalid literal for int() with base 10: '" ++ s ++ "'")

/-- JSON whitespace skipping. -/
def jsonSkipWs : List Char → List Char
  | c :: rest =>
      if c = ' ' ∨ c = '\t' ∨ c = '\n' ∨ c = '\r' then jsonSkipWs rest
      else c :: rest
  | [] => []

/-- JSON string body: read characters up to the closing quote (escape
sequences are outside the model and rejected). -/
def jsonStringBody : List Char → Except String (List Char × List Char)
  | [] => Except.error "truncated string"
  | c :: rest =>
      if c = '"' then Except.ok ([], rest)
      else if c = '\\' then Except.error "unsupported escape"
      else
        match jsonStringBody rest with
        | Except.ok (s, r) => Except.ok (c :: s, r)
        | Except.error e => Except.error e

mutual

/-- Fuel-indexed JSON value parser (`msgspec.json.decode` on the fragment the
engine feeds it: null, booleans, integers, strings, arrays, objects). -/
def jsonParse : Nat → List Char → Except String (Value × List Char)
  | 0, _ => Except.error "out of fuel"
  | Nat.succ fuel, cs =>
      match jsonSkipWs cs with
      | [] => Except.error "truncated"
      | c :: rest =>
          if c = 'n' then
            match rest with
            | 'u' :: 'l' :: 'l' :: r => Except.ok (Value.vNone, r)
            | _ => Except.error "invalid token"
          else if c = 't' then
            match rest with
            | 'r' :: 'u' :: 'e' :: r => Except.ok (Value.vBool true, r)
            | _ => Except.error "invalid token"
          else if c = 'f' then
            match rest with
            | 'a' :: 'l' :: 's' :: 'e' :: r => Except.ok (Value.vBool false, r)
            | _ => Except.error "invalid token"
          else if c = '"' then
            match jsonStringBody rest with
            | Except.ok (s, r) => Except.ok (Value.vStr (String.mk s), r)
            | Except.error e => Except.error e
          else if c = '[' then
            match jsonSkipWs rest with
            | ']' :: r => Except.ok (Value.vList [], r)
            | r =>
                match jsonArrayItems fuel r with
                | Except.ok (xs, r2) => Except.ok (Value.vList xs, r2)
                | Except.error e => Except.error e
          else if c = '{' then
            match jsonSkipWs rest with
            | '}' :: r => Except.ok (Value.vDict [], r)
            | r =>
                match jsonObjItems fuel r with
                | Except.ok (xs, r2) => Except.ok (Value.vDict xs, r2)
                | Except.error e => Except.error e
          else if c = '-' then
            match rest.span Char.isDigit with
            | (ds, r) =>
                if ds = [] then Except.error "invalid number"
                else Except.ok (Value.vInt (-(digitsToNat ds : Int)), r)
          else if c.isDigit then
            match (c :: rest).span Char.isDigit with
            | (ds, r) => Except.ok (Value.vInt (digitsToNat ds : Int), r)
          else Except.error "invalid token"

/-- Comma-separated JSON array items up to the closing bracket. -/
def jsonArrayItems : Nat → List Char → Except String (List Value × List Char)
  | 0, _ => Except.error "out of fuel"
  | Nat.succ fuel, cs =>
      match jsonParse fuel cs with
      | Except.error e => Except.error e
      | Except.ok (v, r) =>
          match jsonSkipWs r with
          | ']' :: r2 => Except.ok ([v], r2)
          | ',' :: r2 =>
              match jsonArrayItems fuel r2 with
              | Except.ok (xs, r3) => Except.ok (v :: xs, r3)
              | Except.error e => Except.error e
          | _ => Except.error "expected comma or bracket"

/-- Comma-separated JSON object members up to the closing brace. -/
def jsonObjItems : Nat → List Char → Except String (List (String × Value) × List Char)
  | 0, _ => Except.error "out of fuel"
  | Nat.succ fuel, cs =>
      match jsonSkipWs cs with
      | '"' :: rest =>
          match jsonStringBody rest with
          | Except.error e => Except.error e
          | Except.ok (k, r) =>
              match jsonSkipWs r with
              | ':' :: r2 =>
                  match jsonParse fuel r2 with
                  | Except.error e => Except.error e
                  | Except.ok (v, r3) =>
                      match jsonSkipWs r3 with
                      | '}' :: r4 => Except.ok ([(String.mk k, v)], r4)
                      | ',' :: r4 =>
                          match jsonObjItems fuel r4 with
                          | Except.ok (xs, r5) => Except.ok ((String.mk k, v) :: xs, r5)
                          | Except.error e => Except.error e
                      | _ => Except.error "expected comma or brace"
              | _ => Except.error "expected colon"
      | _ => Except.error "expected string key"

end

/-- `msgspec.json.decode(s)`: parse one JSON document, rejecting trailing
non-whitespace. -/
def jsonDecode (s : String) : Except String Value :=
  match jsonParse (s.length + 2) s.toList with
  | Except.error e => Except.error e
  | Except.ok (v, rest) =>
      match jsonSkipWs rest with
      | [] => Except.ok v
      | _ => Except.error "trailing data"

/-- The fixed truthy set of `_convert_env_value`'s boolean branch. -/
def truthyStrings : List String := ["true", "1", "t", "y", "yes"]

/-- `_convert_env_value`: type-directed coercion of a raw environment string.
Booleans: membership of the lower-cased string in the truthy set (total).
Integers (also `Optional[int]`): Python `int()`.  Lists: a bracketed literal
is JSON-decoded, anything else is split on commas into substrings.  Dicts:
JSON-decoded.  Fallback (`str` and opaque types): the raw string unchanged. -/
def convertEnvValue (value : String) (ftype : FType) : Except String Value :=
  match ftype with
  | FType.fBool => Except.ok (Value.vBool (listContainsStr truthyStrings (pyLower value)))
  | FType.fInt => (pyParseInt value).map Value.vInt
  | FType.fOptionalInt => (pyParseInt value).map Value.vInt
  | FType.fList =>
      if pyStartsWith value "[" && pyEndsWith value "]" then jsonDecode value
      else Except.ok (Value.vList ((pySplitComma value).map Value.vStr))
  | FType.fDict => jsonDecode value
  | FType.fStr => Except.ok (Value.vStr value)

/-- `_get_env_vars`: for each catalogued field, look its derived key up in the
process environment and coerce the raw string; the first coercion failure
aborts with a message naming the environment key. -/
def getEnvVars (cfg : SettingsConfigDict) :
    List (String × FieldInfo) → List (String × String) →
    Except String (List (String × Value))
  | [], _ => Except.ok []
  | (fname, fi) :: rest, env =>
      match lookupStr env (getEnvName cfg fi) with
      | none => getEnvVars cfg rest env
      | some raw =>
          match convertEnvValue raw fi.ftype with
          | Except.ok v =>
              (getEnvVars cfg rest env).map (fun l => (fname, v) :: l)
          | Except.error e =>
              Except.error
                ("Error parsing environment variable " ++ getEnvName cfg fi ++ ": " ++ e)

/-- `_get_field_default`: factory first (invoked now), then fixed default,
then `None`. -/
def getFieldDefault (fi : FieldInfo) : Value :=
  if fi.hasDefaultFactory then
    match fi.defaultFactory with
    | some f => f ()
    | none => Value.vNone
  else if fi.hasDefault then fi.default
  else Value.vNone

/-- `msgspec.convert(value, type)` on already-typed values (strict mode):
a value matching the declared type is returned unchanged, `None` is accepted
for `Optional` targets, anything else is a validation error. -/
def msgspecConvert (v : Value) (ftype : FType) : Except String Value :=
  match ftype, v with
  | FType.fBool, Value.vBool _ => Except.ok v
  | FType.fInt, Value.vInt _ => Except.ok v
  | FType.fOptionalInt, Value.vInt _ => Except.ok v
  | FType.fOptionalInt, Value.vNone => Except.ok v
  | FType.fStr, Value.vStr _ => Except.ok v
  | FType.fList, Value.vList _ => Except.ok v
  | FType.fDict, Value.vDict _ => Except.ok v
  | _, _ => Except.error "Expected matching type"

/-- Python `value is None` as the engine uses it. -/
def isNone : Value → Bool
  | Value.vNone => true
  | _ => false

/-- The value the precedence merge selects for one field (lines 137-140 of
`_validate_and_set_values`): the merged-dict entry, or — when that is
`None`, which covers both an absent key and a stored `None` — the field's
default (factory first, then fixed default, then `None`). -/
def selectedValue (fi : FieldInfo) (v0 : Value) : Value :=
  if isNone v0 then getFieldDefault fi else v0

/-- The per-field loop of `_validate_and_set_values`: `values.get(name)`,
fall back to the default when the result is `None`, then either validate and
assign a non-`None` value, raise for a required field left without a value,
or skip an optional field.  The returned association list records the
`setattr` calls in field-catalog order. -/
def validateValues :
    List (String × FieldInfo) → (String → Value) →
    Except String (List (String × Value))
  | [], _ => Except.ok []
  | (fname, fi) :: rest, get =>
      let v := selectedValue fi (get fname)
      if isNone v then
        if !fi.hasDefault && !fi.hasDefaultFactory then
          Except.error ("Missing required field: " ++ fname)
        else validateValues rest get
      else
        match msgspecConvert v fi.ftype with
        | Except.ok vv =>
            (validateValues rest get).map (fun l => (fname, vv) :: l)
        | Except.error e =>
            Except.error ("Validation error for field " ++ fname ++ ": " ++ e)

/-- The value-independent schema of `_generate_schema`: field name to type
descriptor, plus the fields with neither default nor default factory. -/
structure Schema where
  properties : List (String × FType)
  required : List String
deriving DecidableEq, Repr

/-- `_generate_schema` via the `schema_hook`: properties from the catalog's
declared types, required list of the fields lacking both default shapes. -/
def generateSchema (fields : List (String × FieldInfo)) : Schema :=
  ⟨fields.map (fun p => (p.1, p.2.ftype)),
   (fields.filter (fun p => !p.2.hasDefault && !p.2.hasDefaultFactory)).map (fun p => p.1)⟩

/-- A constructed `BaseSettings` instance: the attributes actually set, in
catalog order, and the cached schema. -/
structure ResolvedSettings where
  values : List (String × Value)
  schema : Schema

/-- `BaseSettings.__init__(**values)` under process environment `env`:
catalog the fields, read and coerce the environment, merge
`{**values, **env_vars}` (the later mapping, the environment, overrides),
then validate and set each field and cache the schema. -/
def initSettings (cls : SettingsType) (values : List (String × Value))
    (env : List (String × String)) : Except String ResolvedSettings :=
  let fields := getFieldsInfo cls.annotations
  match getEnvVars cls.config fields env with
  | Except.error e => Except.error e
  | Except.ok envVars =>
      match validateValues fields (fun n => dictGet (envVars ++ values) n) with
      | Except.error e => Except.error e
      | Except.ok assigned => Except.ok ⟨assigned, generateSchema fields⟩

/-- Whether `pat` occurs in `hay` as a contiguous run (Python `pat in s`). -/
def charsContain : List Char → List Char → Bool
  | [], pat => charsStart pat []
  | c :: rest, pat => charsStart pat (c :: rest) || charsContain rest pat

/-- Python substring membership `pat in s`. -/
def pyContains (s pat : String) : Bool :=
  charsContain s.data pat.data

/-! ### Concrete settings types used to instantiate the claims -/

/-- `SettingsConfigDict(env_prefix="APP_", case_sensitive=False)`. -/
def appCfg : SettingsConfigDict := ⟨none, "utf-8", false, "APP_", "__"⟩

/-- `SettingsConfigDict(env_prefix="APP_", case_sensitive=True)`. -/
def csCfg : SettingsConfigDict := ⟨none, "utf-8", true, "APP_", "__"⟩

/-- A settings type with one required `int` field `debug`. -/
def debugType : SettingsType :=
  ⟨defaultConfig, [("debug", FType.fInt, ClassAttr.noAttr)]⟩

/-- A settings type with one required `bool` field `flag`. -/
def flagType : SettingsType :=
  ⟨defaultConfig, [("flag", FType.fBool, ClassAttr.noAttr)]⟩

/-- A settings type with one required `str` field `host`. -/
def hostType : SettingsType :=
  ⟨defaultConfig, [("host", FType.fStr, ClassAttr.noAttr)]⟩

/-- A settings type whose `str` field `x` has a default factory producing
`None`. -/
def factoryNoneType : SettingsType :=
  ⟨defaultConfig,
   [("x", FType.fStr, ClassAttr.fieldSpec none none (some (fun _ => Value.vNone)))]⟩

/-- A settings type whose `list` field `y` has a default factory producing an
empty list. -/
def factoryEmptyType : SettingsType :=
  ⟨defaultConfig,
   [("y", FType.fList, ClassAttr.fieldSpec none none (some (fun _ => Value.vList [])))]⟩

/-- A settings type with a required `int` field `a` and a `str` field `b`
with plain class-level default `"x"`. -/
def abType : SettingsType :=
  ⟨defaultConfig,
   [("a", FType.fInt, ClassAttr.noAttr),
    ("b", FType.fStr, ClassAttr.plain (Value.vStr "x"))]⟩

/-- The two resolved instances used to instantiate the schema claim. -/
def abRes1 : ResolvedSettings :=
  ⟨[("a", Value.vInt 1), ("b", Value.vStr "x")],
   ⟨[("a", FType.fInt), ("b", FType.fStr)], ["a"]⟩⟩

def abRes2 : ResolvedSettings :=
  ⟨[("a", Value.vInt 2), ("b", Value.vStr "y")],
   ⟨[("a", FType.fInt), ("b", FType.fStr)], ["a"]⟩⟩

/-- A settings type whose `int` field `debug` carries a `msgspec` `Field`
with external name `verbose`. -/
def renamedType : SettingsType :=
  ⟨defaultConfig, [("debug", FType.fInt, ClassAttr.fieldSpec (some "verbose") none none)]⟩

/-- The parse-error message produced for `renamedType` when `VERBOSE=abc`. -/
def renamedErrMsg : String :=
  "Error parsing environment variable VERBOSE: invalid literal for int() with base 10: 'abc'"

/-- A settings type with one required `int` field `port`. -/
def portType : SettingsType :=
  ⟨defaultConfig, [("port", FType.fInt, ClassAttr.noAttr)]⟩

/-- A settings type whose `int` field `retries` has plain default `3`. -/
def retriesType : SettingsType :=
  ⟨defaultConfig, [("retries", FType.fInt, ClassAttr.plain (Value.vInt 3))]⟩

/-! ### Lemmas about the embedded operations -/

theorem lookupStr_append {α : Type} (l1 l2 : List (String × α)) (k : String) :
    lookupStr (l1 ++ l2) k =
      match lookupStr l1 k with
      | some v => some v
      | none => lookupStr l2 k := by
  induction l1 with
  | nil => simp [lookupStr]
  | cons p rest ih =>
      obtain ⟨k', v⟩ := p
      by_cases h : k' = k <;> simp [lookupStr, h, ih]

theorem lookupStr_eq_none {α : Type} (l : List (String × α)) (k : String)
    (h : k ∉ l.map Prod.fst) : lookupStr l k = none := by
  induction l with
  | nil => rfl
  | cons p rest ih =>
      obtain ⟨k', v⟩ := p
      have h1 : ¬ (k' = k) := fun hh => h (by simp [hh])
      have h2 : k ∉ rest.map Prod.fst := fun hh => h (by simp [hh])
      simp [lookupStr, h1, ih h2]

theorem validateValues_append (xs ys : List (String × FieldInfo)) (get : String → Value) :
    validateValues (xs ++ ys) get =
      match validateValues xs get with
      | Except.error e => Except.error e
      | Except.ok l => (validateValues ys get).map (fun l2 => l ++ l2) := by
  induction xs with
  | nil =>
      simp only [List.nil_append, validateValues]
      cases validateValues ys get <;> simp [Except.map]
  | cons p rest ih =>
      obtain ⟨fname, fi⟩ := p
      simp only [List.cons_append, validateValues]
      by_cases hv : isNone (selectedValue fi (get fname))
      · by_cases hreq : (!fi.hasDefault && !fi.hasDefaultFactory) = true <;>
          simp [hv, hreq, ih]
      · cases hc : msgspecConvert (selectedValue fi (get fname)) fi.ftype <;>
          simp [hv, hc, ih] <;>
          cases validateValues rest get <;>
          cases validateValues ys get <;>
          simp [Except.map]

theorem validateValues_keys_sub (xs : List (String × FieldInfo)) (get : String → Value)
    (l : List (String × Value)) (h : validateValues xs get = Except.ok l) :
    l.map Prod.fst ⊆ xs.map Prod.fst := by
  induction xs generalizing l with
  | nil =>
      simp only [validateValues, Except.ok.injEq] at h
      simp [← h]
  | cons p rest ih =>
      obtain ⟨fname, fi⟩ := p
      simp only [validateValues] at h
      by_cases hv : isNone (selectedValue fi (get fname))
      · rw [if_pos hv] at h
        by_cases hreq : (!fi.hasDefault && !fi.hasDefaultFactory) = true
        · rw [if_pos hreq] at h
          exact absurd h (by simp)
        · rw [if_neg hreq] at h
          exact fun a ha => List.mem_cons_of_mem _ (ih l h ha)
      · rw [if_neg hv] at h
        cases hc : msgspecConvert (selectedValue fi (get fname)) fi.ftype with
        | error e => simp [hc] at h
        | ok vv =>
            simp only [hc] at h
            cases hr : validateValues rest get with
            | error e => simp [hr, Except.map] at h
            | ok l' =>
                simp only [hr, Except.map, Except.ok.injEq] at h
                subst h
                intro a ha
                simp only [List.map_cons, List.mem_cons] at ha ⊢
                cases ha with
                | inl hh => exact Or.inl hh
                | inr hh => exact Or.inr (ih l' hr (by simpa using hh))

theorem getEnvVars_append (cfg : SettingsConfigDict) (xs ys : List (String × FieldInfo))
    (env : List (String × String)) :
    getEnvVars cfg (xs ++ ys) env =
      match getEnvVars cfg xs env with
      | Except.error e => Except.error e
      | Except.ok l => (getEnvVars cfg ys env).map (fun l2 => l ++ l2) := by
  induction xs with
  | nil =>
      simp only [List.nil_append, getEnvVars]
      cases getEnvVars cfg ys env <;> simp [Except.map]
  | cons p rest ih =>
      obtain ⟨fname, fi⟩ := p
      simp only [List.cons_append, getEnvVars]
      cases hl : lookupStr env (getEnvName cfg fi) with
      | none => simp [ih]
      | some raw =>
          cases hc : convertEnvValue raw fi.ftype <;>
            simp [hc, ih] <;>
            cases getEnvVars cfg rest env <;>
            cases getEnvVars cfg ys env <;>
            simp [Except.map]

theorem getEnvVars_keys_sub (cfg : SettingsConfigDict) (xs : List (String × FieldInfo))
    (env : List (String × String)) (l : List (String × Value))
    (h : getEnvVars cfg xs env = Except.ok l) :
    l.map Prod.fst ⊆ xs.map Prod.fst := by
  induction xs generalizing l with
  | nil =>
      simp only [getEnvVars, Except.ok.injEq] at h
      simp [← h]
  | cons p rest ih =>
      obtain ⟨fname, fi⟩ := p
      simp only [getEnvVars] at h
      cases hl : lookupStr env (getEnvName cfg fi) with
      | none =>
          simp only [hl] at h
          exact fun a ha => List.mem_cons_of_mem _ (ih l h ha)
      | some raw =>
          simp only [hl] at h
          cases hc : convertEnvValue raw fi.ftype with
          | error e => simp [hc] at h
          | ok v =>
              simp only [hc] at h
              cases hr : getEnvVars cfg rest env with
              | error e => simp [hr, Except.map] at h
              | ok l' =>
                  simp only [hr, Except.map, Except.ok.injEq] at h
                  subst h
                  intro a ha
                  simp only [List.map_cons, List.mem_cons] at ha ⊢
                  cases ha with
                  | inl hh => exact Or.inl hh
                  | inr hh => exact Or.inr (ih l' hr (by simpa using hh))

theorem initSettings_eq (cls : SettingsType) (values : List (String × Value))
    (env : List (String × String)) :
    initSettings cls values env =
      match getEnvVars cls.config (getFieldsInfo cls.annotations) env with
      | Except.error e => Except.error e
      | Except.ok envVars =>
          match validateValues (getFieldsInfo cls.annotations)
              (fun n => dictGet (envVars ++ values) n) with
          | Except.error e => Except.error e
          | Except.ok assigned =>
              Except.ok ⟨assigned, generateSchema (getFieldsInfo cls.annotations)⟩ := rfl

theorem getEnvVars_lookup_none (cfg : SettingsConfigDict)
    (pre post : List (String × FieldInfo)) (f : String) (fi : FieldInfo)
    (env : List (String × String)) (envVars : List (String × Value))
    (henv : getEnvVars cfg (pre ++ (f, fi) :: post) env = Except.ok envVars)
    (hpre : f ∉ pre.map Prod.fst) (hpost : f ∉ post.map Prod.fst)
    (hraw : lookupStr env (getEnvName cfg fi) = none) :
    lookupStr envVars f = none := by
  rw [getEnvVars_append] at henv
  cases h1 : getEnvVars cfg pre env with
  | error e => simp [h1] at henv
  | ok l1 =>
      simp only [h1, getEnvVars, hraw] at henv
      cases h2 : getEnvVars cfg post env with
      | error e => simp [h2, Except.map] at henv
      | ok l2 =>
          simp only [h2, Except.map, Except.ok.injEq] at henv
          subst henv
          rw [lookupStr_append]
          rw [lookupStr_eq_none l1 f (fun hm => hpre (getEnvVars_keys_sub cfg pre env l1 h1 hm)),
            lookupStr_eq_none l2 f (fun hm => hpost (getEnvVars_keys_sub cfg post env l2 h2 hm))]

theorem getEnvVars_lookup_some (cfg : SettingsConfigDict)
    (pre post : List (String × FieldInfo)) (f : String) (fi : FieldInfo)
    (env : List (String × String)) (envVars : List (String × Value))
    (raw : String) (v : Value)
    (henv : getEnvVars cfg (pre ++ (f, fi) :: post) env = Except.ok envVars)
    (hpre : f ∉ pre.map Prod.fst)
    (hraw : lookupStr env (getEnvName cfg fi) = some raw)
    (hconv : convertEnvValue raw fi.ftype = Except.ok v) :
    lookupStr envVars f = some v := by
  rw [getEnvVars_append] at henv
  cases h1 : getEnvVars cfg pre env with
  | error e => simp [h1] at henv
  | ok l1 =>
      simp only [h1, getEnvVars, hraw, hconv] at henv
      cases h2 : getEnvVars cfg post env with
      | error e => simp [h2, Except.map] at henv
      | ok l2 =>
          simp only [h2, Except.map, Except.ok.injEq] at henv
          subst henv
          rw [lookupStr_append]
          rw [lookupStr_eq_none l1 f (fun hm => hpre (getEnvVars_keys_sub cfg pre env l1 h1 hm))]
          simp [lookupStr]

theorem getEnvVars_error_mid (cfg : SettingsConfigDict)
    (pre post : List (String × FieldInfo)) (f : String) (fi : FieldInfo)
    (env : List (String × String)) (l1 : List (String × Value)) (raw : String) (e : String)
    (hpre : getEnvVars cfg pre env = Except.ok l1)
    (hraw : lookupStr env (getEnvName cfg fi) = some raw)
    (hconv : convertEnvValue raw fi.ftype = Except.error e) :
    getEnvVars cfg (pre ++ (f, fi) :: post) env =
      Except.error ("Error parsing environment variable " ++ getEnvName cfg fi ++ ": " ++ e) := by
  rw [getEnvVars_append, hpre]
  simp only [getEnvVars, hraw, hconv, Except.map]

theorem initSettings_err_env (cls : SettingsType) (values : List (String × Value))
    (env : List (String × String)) (e : String)
    (henv : getEnvVars cls.config (getFieldsInfo cls.annotations) env = Except.error e) :
    initSettings cls values env = Except.error e := by
  rw [initSettings_eq, henv]

theorem initSettings_ok_env (cls : SettingsType) (values : List (String × Value))
    (env : List (String × String)) (envVars : List (String × Value))
    (henv : getEnvVars cls.config (getFieldsInfo cls.annotations) env = Except.ok envVars) :
    initSettings cls values env =
      match validateValues (getFieldsInfo cls.annotations)
          (fun n => dictGet (envVars ++ values) n) with
      | Except.error e => Except.error e
      | Except.ok assigned =>
          Except.ok ⟨assigned, generateSchema (getFieldsInfo cls.annotations)⟩ := by
  rw [initSettings_eq, henv]

theorem initSettings_missing_mid (cls : SettingsType) (values : List (String × Value))
    (env : List (String × String)) (pre post : List (String × FieldInfo))
    (f : String) (fi : FieldInfo) (envVars l : List (String × Value))
    (hfields : getFieldsInfo cls.annotations = pre ++ (f, fi) :: post)
    (hdef : fi.hasDefault = false) (hfac : fi.hasDefaultFactory = false)
    (henv : getEnvVars cls.config (getFieldsInfo cls.annotations) env = Except.ok envVars)
    (hmerged : dictGet (envVars ++ values) f = Value.vNone)
    (hvalpre : validateValues pre (fun n => dictGet (envVars ++ values) n) = Except.ok l) :
    initSettings cls values env = Except.error ("Missing required field: " ++ f) := by
  rw [initSettings_ok_env cls values env envVars henv, hfields, validateValues_append, hvalpre]
  simp [validateValues, hmerged, selectedValue, isNone, getFieldDefault, hdef, hfac,
    Except.map]

theorem initSettings_missing_no_ok (cls : SettingsType) (values : List (String × Value))
    (env : List (String × String)) (pre post : List (String × FieldInfo))
    (f : String) (fi : FieldInfo)
    (hfields : getFieldsInfo cls.annotations = pre ++ (f, fi) :: post)
    (hdef : fi.hasDefault = false) (hfac : fi.hasDefaultFactory = false)
    (hpre : f ∉ pre.map Prod.fst) (hpost : f ∉ post.map Prod.fst)
    (hnoenv : lookupStr env (getEnvName cls.config fi) = none)
    (hnoval : dictGet values f = Value.vNone) :
    ∀ s, initSettings cls values env ≠ Except.ok s := by
  intro s h
  cases he : getEnvVars cls.config (getFieldsInfo cls.annotations) env with
  | error e => rw [initSettings_err_env cls values env e he] at h; exact absurd h (by simp)
  | ok envVars =>
      rw [initSettings_ok_env cls values env envVars he] at h
      have he' := he
      rw [hfields] at he'
      have henvf : lookupStr envVars f = none :=
        getEnvVars_lookup_none cls.config pre post f fi env envVars he' hpre hpost hnoenv
      have hmerged : dictGet (envVars ++ values) f = Value.vNone := by
        rw [dictGet, lookupStr_append, henvf]
        exact hnoval
      rw [hfields, validateValues_append] at h
      cases hp : validateValues pre (fun n => dictGet (envVars ++ values) n) with
      | error e => simp [hp] at h
      | ok l =>
          simp [hp, validateValues, hmerged, selectedValue, isNone, getFieldDefault,
            hdef, hfac, Except.map] at h

theorem initSettings_assign_mid (cls : SettingsType) (values : List (String × Value))
    (env : List (String × String)) (pre post : List (String × FieldInfo))
    (f : String) (fi : FieldInfo) (envVars l l2 : List (String × Value)) (vv : Value)
    (hfields : getFieldsInfo cls.annotations = pre ++ (f, fi) :: post)
    (henv : getEnvVars cls.config (getFieldsInfo cls.annotations) env = Except.ok envVars)
    (hvalpre : validateValues pre (fun n => dictGet (envVars ++ values) n) = Except.ok l)
    (hsel : isNone (selectedValue fi (dictGet (envVars ++ values) f)) = false)
    (hmc : msgspecConvert (selectedValue fi (dictGet (envVars ++ values) f)) fi.ftype =
      Except.ok vv)
    (hvalpost : validateValues post (fun n => dictGet (envVars ++ values) n) = Except.ok l2) :
    initSettings cls values env =
      Except.ok ⟨l ++ (f, vv) :: l2, generateSchema (getFieldsInfo cls.annotations)⟩ := by
  rw [initSettings_ok_env cls values env envVars henv, hfields, validateValues_append, hvalpre]
  simp [validateValues, hsel, hmc, hvalpost, Except.map]

theorem initSettings_skip_mid (cls : SettingsType) (values : List (String × Value))
    (env : List (String × String)) (pre post : List (String × FieldInfo))
    (f : String) (fi : FieldInfo) (envVars l l2 : List (String × Value))
    (hfields : getFieldsInfo cls.annotations = pre ++ (f, fi) :: post)
    (henv : getEnvVars cls.config (getFieldsInfo cls.annotations) env = Except.ok envVars)
    (hvalpre : validateValues pre (fun n => dictGet (envVars ++ values) n) = Except.ok l)
    (hsel : isNone (selectedValue fi (dictGet (envVars ++ values) f)) = true)
    (hopt : (fi.hasDefault || fi.hasDefaultFactory) = true)
    (hvalpost : validateValues post (fun n => dictGet (envVars ++ values) n) = Except.ok l2) :
    initSettings cls values env =
      Except.ok ⟨l ++ l2, generateSchema (getFieldsInfo cls.annotations)⟩ := by
  rw [initSettings_ok_env cls values env envVars henv, hfields, validateValues_append, hvalpre]
  have hflag : (!fi.hasDefault && !fi.hasDefaultFactory) = false := by
    cases hd : fi.hasDefault <;> cases hf : fi.hasDefaultFactory <;> simp_all
  simp [validateValues, hsel, hflag, hvalpost, Except.map]

theorem initSettings_ok_schema (cls : SettingsType) (values : List (String × Value))
    (env : List (String × String)) (s : ResolvedSettings)
    (h : initSettings cls values env = Except.ok s) :
    s.schema = generateSchema (getFieldsInfo cls.annotations) := by
  cases he : getEnvVars cls.config (getFieldsInfo cls.annotations) env with
  | error e => rw [initSettings_err_env cls values env e he] at h; exact absurd h (by simp)
  | ok envVars =>
      rw [initSettings_ok_env cls values env envVars he] at h
      cases hv : validateValues (getFieldsInfo cls.annotations)
          (fun n => dictGet (envVars ++ values) n) with
      | error e => simp [hv] at h
      | ok assigned =>
          simp only [hv, Except.ok.injEq] at h
          rw [← h]

theorem lookupStr_removeKey_ne (values : List (String × Value)) (f n : String)
    (hne : ¬ n = f) :
    lookupStr (removeKey values f) n = lookupStr values n := by
  induction values with
  | nil => rfl
  | cons p rest ih =>
      obtain ⟨k, v⟩ := p
      by_cases hk : k = f
      · have hfn : ¬ (f = n) := fun hh => hne hh.symm
        simp [removeKey, hk, lookupStr, hfn, ih]
      · by_cases hkn : k = n <;> simp [removeKey, hk, lookupStr, hkn, hne, ih]

theorem lookupStr_removeKey_self (values : List (String × Value)) (f : String) :
    lookupStr (removeKey values f) f = none := by
  induction values with
  | nil => rfl
  | cons p rest ih =>
      obtain ⟨k, v⟩ := p
      by_cases hk : k = f <;> simp [removeKey, hk, lookupStr, ih]

/-! ### The claims -/

/-- Claim C1 counterexample: for `debugType`, constructing with explicit
argument `debug=1` while the environment carries `DEBUG=2` resolves `debug`
to the environment-derived `2`, not the explicit `1`: the merge
`{**values, **env_vars}` lets the environment override the explicit
constructor argument, so the claimed precedence (explicit over environment)
is false on the code. -/
theorem c1_counterexample :
    initSettings debugType [("debug", Value.vInt 1)] [("DEBUG", "2")] =
      Except.ok ⟨[("debug", Value.vInt 2)], ⟨[("debug", FType.fInt)], ["debug"]⟩⟩ ∧
    Value.vInt 2 ≠ Value.vInt 1 :=
  ⟨rfl, by simp⟩

/-- Claim C1 (amended): when a catalogued field has a matching environment
variable whose string coerces to a non-`None` value, the resolved value on
the instance is that environment-derived value (after validation), for every
choice of explicit constructor arguments — including one supplying that very
field.  The actual precedence is: environment value > explicit argument >
fixed default > default-factory result. -/
theorem c1_env_precedence (cls : SettingsType) (values : List (String × Value))
    (env : List (String × String)) (pre post : List (String × FieldInfo))
    (f : String) (fi : FieldInfo) (raw : String) (v w vv : Value)
    (envVars l l2 : List (String × Value))
    (hfields : getFieldsInfo cls.annotations = pre ++ (f, fi) :: post)
    (hpre : f ∉ pre.map Prod.fst)
    (hexp : lookupStr values f = some w)
    (hraw : lookupStr env (getEnvName cls.config fi) = some raw)
    (hconv : convertEnvValue raw fi.ftype = Except.ok v)
    (hvnn : isNone v = false)
    (henv : getEnvVars cls.config (getFieldsInfo cls.annotations) env = Except.ok envVars)
    (hvalpre : validateValues pre (fun n => dictGet (envVars ++ values) n) = Except.ok l)
    (hmc : msgspecConvert v fi.ftype = Except.ok vv)
    (hvalpost : validateValues post (fun n => dictGet (envVars ++ values) n) = Except.ok l2) :
    initSettings cls values env =
      Except.ok ⟨l ++ (f, vv) :: l2, generateSchema (getFieldsInfo cls.annotations)⟩ := by
  have henv' := henv
  rw [hfields] at henv'
  have hv : lookupStr envVars f = some v :=
    getEnvVars_lookup_some cls.config pre post f fi env envVars raw v henv' hpre hraw hconv
  have hmerged : dictGet (envVars ++ values) f = v := by
    rw [dictGet, lookupStr_append, hv]
    rfl
  have hselv : selectedValue fi (dictGet (envVars ++ values) f) = v := by
    rw [hmerged, selectedValue, hvnn]
    simp
  exact initSettings_assign_mid cls values env pre post f fi envVars l l2 vv hfields henv
    hvalpre (by rw [hselv]; exact hvnn) (by rw [hselv]; exact hmc) hvalpost

/-- Witness for C1 (amended): for `flagType` with explicit `flag=False` and
environment `FLAG=yes`, the resolved value is `True` (from the
environment). -/
theorem c1_env_precedence_witness :
    initSettings flagType [("flag", Value.vBool false)] [("FLAG", "yes")] =
      Except.ok ⟨[("flag", Value.vBool true)], ⟨[("flag", FType.fBool)], ["flag"]⟩⟩ :=
  c1_env_precedence flagType [("flag", Value.vBool false)] [("FLAG", "yes")] [] []
    "flag" (mkFieldInfo "flag" FType.fBool ClassAttr.noAttr) "yes"
    (Value.vBool true) (Value.vBool false) (Value.vBool true)
    [("flag", Value.vBool true)] [] []
    rfl (by simp) rfl rfl rfl rfl rfl rfl rfl rfl

/-- Claim C2: a field with neither a fixed default nor a default factory,
supplied by no explicit argument and no environment variable, makes
construction fail — it can never return an instance — and, once every
earlier field has been processed successfully, the error is exactly the
missing-required-field message naming that field. -/
theorem c2_missing_required (cls : SettingsType) (values : List (String × Value))
    (env : List (String × String)) (pre post : List (String × FieldInfo))
    (f : String) (fi : FieldInfo)
    (hfields : getFieldsInfo cls.annotations = pre ++ (f, fi) :: post)
    (hdef : fi.hasDefault = false) (hfac : fi.hasDefaultFactory = false)
    (hpre : f ∉ pre.map Prod.fst) (hpost : f ∉ post.map Prod.fst)
    (hnoenv : lookupStr env (getEnvName cls.config fi) = none)
    (hnoval : lookupStr values f = none) :
    (∀ s, initSettings cls values env ≠ Except.ok s) ∧
    (∀ envVars l,
        getEnvVars cls.config (getFieldsInfo cls.annotations) env = Except.ok envVars →
        validateValues pre (fun n => dictGet (envVars ++ values) n) = Except.ok l →
        initSettings cls values env = Except.error ("Missing required field: " ++ f)) := by
  have hnd : dictGet values f = Value.vNone := by rw [dictGet, hnoval]; rfl
  refine ⟨initSettings_missing_no_ok cls values env pre post f fi hfields hdef hfac hpre hpost
    hnoenv hnd, ?_⟩
  intro envVars l henv hvalpre
  have henv' := henv
  rw [hfields] at henv'
  have henvf : lookupStr envVars f = none :=
    getEnvVars_lookup_none cls.config pre post f fi env envVars henv' hpre hpost hnoenv
  have hmerged : dictGet (envVars ++ values) f = Value.vNone := by
    rw [dictGet, lookupStr_append, henvf]
    exact hnd
  exact initSettings_missing_mid cls values env pre post f fi envVars l hfields hdef hfac
    henv hmerged hvalpre

/-- Witness for C2: `hostType` constructed with no arguments and an empty
environment aborts with the missing-required-field error naming `host`. -/
theorem c2_missing_required_witness :
    initSettings hostType [] [] = Except.error "Missing required field: host" :=
  (c2_missing_required hostType [] [] [] [] "host"
      (mkFieldInfo "host" FType.fStr ClassAttr.noAttr)
      rfl rfl rfl (by simp) (by simp) rfl rfl).2 [] [] rfl rfl

/-- Claim C3 counterexample: for `factoryNoneType`, whose field `x` has a
default factory producing `None`, construction with no argument and no
environment succeeds with `x` left entirely unset — the factory-produced
`None` is neither validated against `str` nor assigned, contradicting the
claim that a selected value that is an explicit `None` produced by a factory
is coerced and assigned. -/
theorem c3_counterexample :
    initSettings factoryNoneType [] [] =
      Except.ok ⟨[], ⟨[("x", FType.fStr)], []⟩⟩ := rfl

/-- Claim C3 (amended): if the selected value for a field is present and
non-`None` — which includes empty values such as an empty list produced by a
default factory — it is validated against the declared type and assigned; a
selected value of `None` (even one produced explicitly by a default factory)
is treated as absent: an optional field is left unset on the instance. -/
theorem c3_selected_value_handling (cls : SettingsType) (values : List (String × Value))
    (env : List (String × String)) (pre post : List (String × FieldInfo))
    (f : String) (fi : FieldInfo) (envVars l l2 : List (String × Value))
    (hfields : getFieldsInfo cls.annotations = pre ++ (f, fi) :: post)
    (henv : getEnvVars cls.config (getFieldsInfo cls.annotations) env = Except.ok envVars)
    (hvalpre : validateValues pre (fun n => dictGet (envVars ++ values) n) = Except.ok l)
    (hvalpost : validateValues post (fun n => dictGet (envVars ++ values) n) = Except.ok l2) :
    (∀ vv, isNone (selectedValue fi (dictGet (envVars ++ values) f)) = false →
        msgspecConvert (selectedValue fi (dictGet (envVars ++ values) f)) fi.ftype =
          Except.ok vv →
        initSettings cls values env =
          Except.ok ⟨l ++ (f, vv) :: l2, generateSchema (getFieldsInfo cls.annotations)⟩) ∧
    (isNone (selectedValue fi (dictGet (envVars ++ values) f)) = true →
        (fi.hasDefault || fi.hasDefaultFactory) = true →
        initSettings cls values env =
          Except.ok ⟨l ++ l2, generateSchema (getFieldsInfo cls.annotations)⟩) :=
  ⟨fun vv hsel hmc =>
      initSettings_assign_mid cls values env pre post f fi envVars l l2 vv hfields henv
        hvalpre hsel hmc hvalpost,
   fun hsel hopt =>
      initSettings_skip_mid cls values env pre post f fi envVars l l2 hfields henv
        hvalpre hsel hopt hvalpost⟩

/-- Witness for C3 (amended): `factoryEmptyType`'s factory-produced empty
list is validated and assigned, while `factoryNoneType`'s factory-produced
`None` leaves the field unset. -/
theorem c3_selected_value_handling_witness :
    initSettings factoryEmptyType [] [] =
      Except.ok ⟨[("y", Value.vList [])], ⟨[("y", FType.fList)], []⟩⟩ ∧
    initSettings factoryNoneType [] [] =
      Except.ok ⟨[], ⟨[("x", FType.fStr)], []⟩⟩ :=
  ⟨(c3_selected_value_handling factoryEmptyType [] [] [] [] "y"
      (mkFieldInfo "y" FType.fList
        (ClassAttr.fieldSpec none none (some (fun _ => Value.vList []))))
      [] [] [] rfl rfl rfl rfl).1 (Value.vList []) rfl rfl,
   (c3_selected_value_handling factoryNoneType [] [] [] [] "x"
      (mkFieldInfo "x" FType.fStr
        (ClassAttr.fieldSpec none none (some (fun _ => Value.vNone))))
      [] [] [] rfl rfl rfl rfl).2 rfl rfl⟩

/-- Claim C4: the environment key starts from the field's external name (the
declared name when no override, or an empty override, is present),
upper-cases it exactly when the policy is not case-sensitive, and prepends
the policy's prefix unchanged after the case transformation; in particular
`debug` resolves to `APP_DEBUG` under `caseSensitive=false, envPrefix="APP_"`
and to `APP_debug` under `caseSensitive=true`. -/
theorem c4_env_name_resolution :
    (∀ (cfg : SettingsConfigDict) (fi : FieldInfo),
        getEnvName cfg fi =
          cfg.envPref ++ (if cfg.caseSensitive then fi.extName else pyUpper fi.extName)) ∧
    (∀ (fname : String) (t : FType) (df : Option Value) (dff : Option (Unit → Value)),
        (mkFieldInfo fname t ClassAttr.noAttr).extName = fname ∧
        (∀ v : Value, (mkFieldInfo fname t (ClassAttr.plain v)).extName = fname) ∧
        (mkFieldInfo fname t (ClassAttr.fieldSpec none df dff)).extName = fname ∧
        (∀ nm : String,
            (mkFieldInfo fname t (ClassAttr.fieldSpec (some nm) df dff)).extName =
              (if nm = "" then fname else nm))) ∧
    getEnvName appCfg (mkFieldInfo "debug" FType.fBool ClassAttr.noAttr) = "APP_DEBUG" ∧
    getEnvName csCfg (mkFieldInfo "debug" FType.fBool ClassAttr.noAttr) = "APP_debug" := by
  refine ⟨?_, ?_, rfl, rfl⟩
  · intro cfg fi
    unfold getEnvName
    by_cases hp : cfg.envPref = ""
    · simp [hp]
    · simp [hp]
  · intro fname t df dff
    exact ⟨rfl, fun v => rfl, rfl, fun nm => rfl⟩

/-- Claim C5: coercing an environment string to a boolean-typed field is
total — it always returns a boolean, never an error — and the result is
`True` exactly when the lower-cased string is one of
`true`, `1`, `t`, `y`, `yes`. -/
theorem c5_bool_coercion_total :
    ∀ s : String,
      convertEnvValue s FType.fBool =
        Except.ok (Value.vBool (listContainsStr truthyStrings (pyLower s))) ∧
      (listContainsStr truthyStrings (pyLower s) = true ↔
        pyLower s = "true" ∨ pyLower s = "1" ∨ pyLower s = "t" ∨ pyLower s = "y" ∨
          pyLower s = "yes") := by
  intro s
  refine ⟨rfl, ?_⟩
  simp only [listContainsStr, truthyStrings, Bool.or_eq_true, decide_eq_true_eq]
  constructor
  · rintro (h | h | h | h | (h | hfalse))
    · exact Or.inl h.symm
    · exact Or.inr (Or.inl h.symm)
    · exact Or.inr (Or.inr (Or.inl h.symm))
    · exact Or.inr (Or.inr (Or.inr (Or.inl h.symm)))
    · exact Or.inr (Or.inr (Or.inr (Or.inr h.symm)))
    · exact absurd hfalse (by simp)
  · rintro (h | h | h | h | h) <;> simp [h]

/-- Claim C6: coercing an environment string to a list-typed field parses it
as a JSON-like structured literal when it is bracket-delimited and otherwise
splits it on commas into substrings; in particular `1,2,3` yields the three
strings `"1","2","3"` and `[1,2,3]` yields the parsed literal
`[1, 2, 3]`. -/
theorem c6_list_coercion :
    (∀ s : String,
        convertEnvValue s FType.fList =
          (if pyStartsWith s "[" && pyEndsWith s "]" then jsonDecode s
           else Except.ok (Value.vList ((pySplitComma s).map Value.vStr)))) ∧
    convertEnvValue "1,2,3" FType.fList =
      Except.ok (Value.vList [Value.vStr "1", Value.vStr "2", Value.vStr "3"]) ∧
    convertEnvValue "[1,2,3]" FType.fList = jsonDecode "[1,2,3]" ∧
    jsonDecode "[1,2,3]" =
      Except.ok (Value.vList [Value.vInt 1, Value.vInt 2, Value.vInt 3]) :=
  ⟨fun s => rfl, rfl, rfl, rfl⟩

/-- Claim C7: every successful construction of the same settings type yields
the same cached schema, the schema's required list is exactly the fields with
neither fixed default nor default factory (as a list equation and as a
membership equivalence), independent of the supplied values. -/
theorem c7_schema_required (cls : SettingsType)
    (v1 : List (String × Value)) (e1 : List (String × String))
    (v2 : List (String × Value)) (e2 : List (String × String))
    (s1 s2 : ResolvedSettings)
    (h1 : initSettings cls v1 e1 = Except.ok s1)
    (h2 : initSettings cls v2 e2 = Except.ok s2) :
    s1.schema = s2.schema ∧
    s1.schema.required =
      ((getFieldsInfo cls.annotations).filter
          (fun p => !p.2.hasDefault && !p.2.hasDefaultFactory)).map Prod.fst ∧
    (∀ n, n ∈ s1.schema.required ↔
        ∃ fi, (n, fi) ∈ getFieldsInfo cls.annotations ∧
          fi.hasDefault = false ∧ fi.hasDefaultFactory = false) := by
  have hs1 := initSettings_ok_schema cls v1 e1 s1 h1
  have hs2 := initSettings_ok_schema cls v2 e2 s2 h2
  refine ⟨hs1.trans hs2.symm, by rw [hs1]; rfl, ?_⟩
  intro n
  rw [hs1]
  simp only [generateSchema, List.mem_map, List.mem_filter]
  constructor
  · rintro ⟨⟨a, b⟩, ⟨hmem, hflag⟩, hfst⟩
    simp only at hfst hflag
    rw [Bool.and_eq_true, Bool.not_eq_true', Bool.not_eq_true'] at hflag
    exact ⟨b, by rw [← hfst]; exact hmem, hflag.1, hflag.2⟩
  · rintro ⟨fi, hmem, hh1, hh2⟩
    exact ⟨(n, fi), ⟨hmem, by simp [hh1, hh2]⟩, rfl⟩

/-- Witness for C7: `abType` (required `int` field `a`, `str` field `b` with
default `"x"`) constructed twice with different values has identical schemas
whose required list is exactly `["a"]`. -/
theorem c7_schema_required_witness :
    abRes1.schema = abRes2.schema ∧ abRes1.schema.required = ["a"] := by
  have h := c7_schema_required abType [("a", Value.vInt 1)] []
    [("a", Value.vInt 2), ("b", Value.vStr "y")] [] abRes1 abRes2 rfl rfl
  exact ⟨h.1, h.2.1.trans rfl⟩

/-- Claim C8 counterexample: for `renamedType` (field `debug` with external
name `verbose`), the failing environment entry `VERBOSE=abc` aborts
construction with a message that names the environment key `VERBOSE` but
does not contain the field name `debug` — not even case-insensitively — so
the claim that the message names both the key and the field is false on the
code. -/
theorem c8_counterexample :
    initSettings renamedType [] [("VERBOSE", "abc")] = Except.error renamedErrMsg ∧
    pyContains renamedErrMsg "debug" = false ∧
    pyContains (pyLower renamedErrMsg) "debug" = false :=
  ⟨rfl, rfl, rfl⟩

/-- Claim C8 (amended): when a field's environment variable is present but
its raw string fails to coerce to the declared type, and every earlier
field's environment entry coerces successfully, construction aborts with the
parse error naming the offending external environment key (the field is
identified only through that derived key; its declared name does not appear
separately in the message). -/
theorem c8_parse_error_names_key (cls : SettingsType) (values : List (String × Value))
    (env : List (String × String)) (pre post : List (String × FieldInfo))
    (f : String) (fi : FieldInfo) (l1 : List (String × Value)) (raw e : String)
    (hfields : getFieldsInfo cls.annotations = pre ++ (f, fi) :: post)
    (henvpre : getEnvVars cls.config pre env = Except.ok l1)
    (hraw : lookupStr env (getEnvName cls.config fi) = some raw)
    (hconv : convertEnvValue raw fi.ftype = Except.error e) :
    initSettings cls values env =
      Except.error
        ("Error parsing environment variable " ++ getEnvName cls.config fi ++ ": " ++ e) := by
  have herr := getEnvVars_error_mid cls.config pre post f fi env l1 raw e henvpre hraw hconv
  exact initSettings_err_env cls values env _ (by rw [hfields]; exact herr)

/-- Witness for C8 (amended): `portType` with `PORT=oops` aborts with the
parse error naming `PORT`. -/
theorem c8_parse_error_names_key_witness :
    initSettings portType [] [("PORT", "oops")] =
      Except.error
        "Error parsing environment variable PORT: invalid literal for int() with base 10: 'oops'" :=
  c8_parse_error_names_key portType [] [("PORT", "oops")] [] [] "port"
    (mkFieldInfo "port" FType.fInt ClassAttr.noAttr) [] "oops"
    "invalid literal for int() with base 10: 'oops'" rfl rfl rfl rfl

/-- Claim C9: environment reading and coercion run for every catalogued
field before the precedence merge, so a failing environment string aborts
construction with the parse error even when an explicit constructor argument
was supplied for that same field (for any explicit argument list at all). -/
theorem c9_env_coercion_unconditional (cls : SettingsType)
    (env : List (String × String)) (pre post : List (String × FieldInfo))
    (f : String) (fi : FieldInfo) (l1 : List (String × Value)) (raw e : String)
    (hfields : getFieldsInfo cls.annotations = pre ++ (f, fi) :: post)
    (henvpre : getEnvVars cls.config pre env = Except.ok l1)
    (hraw : lookupStr env (getEnvName cls.config fi) = some raw)
    (hconv : convertEnvValue raw fi.ftype = Except.error e) :
    ∀ (values : List (String × Value)) (w : Value),
      lookupStr values f = some w →
      initSettings cls values env =
        Except.error
          ("Error parsing environment variable " ++ getEnvName cls.config fi ++ ": " ++ e) := by
  intro values w hw
  have herr := getEnvVars_error_mid cls.config pre post f fi env l1 raw e henvpre hraw hconv
  exact initSettings_err_env cls values env _ (by rw [hfields]; exact herr)

/-- Witness for C9: `portType` with explicit argument `port=80` and
environment `PORT=oops` still aborts with the parse error. -/
theorem c9_env_coercion_unconditional_witness :
    initSettings portType [("port", Value.vInt 80)] [("PORT", "oops")] =
      Except.error
        "Error parsing environment variable PORT: invalid literal for int() with base 10: 'oops'" :=
  c9_env_coercion_unconditional portType [("PORT", "oops")] [] [] "port"
    (mkFieldInfo "port" FType.fInt ClassAttr.noAttr) [] "oops"
    "invalid literal for int() with base 10: 'oops'" rfl rfl rfl rfl
    [("port", Value.vInt 80)] (Value.vInt 80) rfl

/-- Claim C10: an explicit constructor argument of `None` for a field is
treated exactly as if the argument were omitted — the whole construction is
equivalent to constructing without that entry, so resolution falls back to
the defaults — and when the field has neither default shape, no environment
entry, and every earlier field resolves, construction aborts with the
missing-required-field error rather than validating `None`. -/
theorem c10_explicit_none_is_absent (cls : SettingsType) (values : List (String × Value))
    (env : List (String × String)) (f : String)
    (hf : lookupStr values f = some Value.vNone) :
    initSettings cls values env = initSettings cls (removeKey values f) env ∧
    (∀ pre post fi envVars l,
        getFieldsInfo cls.annotations = pre ++ (f, fi) :: post →
        fi.hasDefault = false → fi.hasDefaultFactory = false →
        f ∉ pre.map Prod.fst → f ∉ post.map Prod.fst →
        lookupStr env (getEnvName cls.config fi) = none →
        getEnvVars cls.config (getFieldsInfo cls.annotations) env = Except.ok envVars →
        validateValues pre (fun n => dictGet (envVars ++ values) n) = Except.ok l →
        initSettings cls values env = Except.error ("Missing required field: " ++ f)) := by
  constructor
  · have hget : ∀ envVars : List (String × Value),
        (fun n => dictGet (envVars ++ values) n) =
          (fun n => dictGet (envVars ++ removeKey values f) n) := by
      intro envVars
      funext n
      rw [dictGet, dictGet, lookupStr_append, lookupStr_append]
      cases he : lookupStr envVars n with
      | some v => rfl
      | none =>
          by_cases hn : n = f
          · subst hn
            rw [hf, lookupStr_removeKey_self]
            rfl
          · rw [lookupStr_removeKey_ne values f n hn]
    cases he : getEnvVars cls.config (getFieldsInfo cls.annotations) env with
    | error e =>
        rw [initSettings_err_env cls values env e he,
          initSettings_err_env cls (removeKey values f) env e he]
    | ok envVars =>
        rw [initSettings_ok_env cls values env envVars he,
          initSettings_ok_env cls (removeKey values f) env envVars he, hget envVars]
  · intro pre post fi envVars l hfields hdef hfac hpre hpost hnoenv henv hvalpre
    have henv' := henv
    rw [hfields] at henv'
    have henvf : lookupStr envVars f = none :=
      getEnvVars_lookup_none cls.config pre post f fi env envVars henv' hpre hpost hnoenv
    have hmerged : dictGet (envVars ++ values) f = Value.vNone := by
      rw [dictGet, lookupStr_append, henvf, hf]
      rfl
    exact initSettings_missing_mid cls values env pre post f fi envVars l hfields hdef hfac
      henv hmerged hvalpre

/-- Witness for C10: for `retriesType` (default `3`), passing `retries=None`
is the same as omitting it and resolves to `3`; for `hostType` (required),
passing `host=None` aborts with the missing-required-field error. -/
theorem c10_explicit_none_is_absent_witness :
    initSettings retriesType [("retries", Value.vNone)] [] =
      initSettings retriesType (removeKey [("retries", Value.vNone)] "retries") [] ∧
    initSettings retriesType [("retries", Value.vNone)] [] =
      Except.ok ⟨[("retries", Value.vInt 3)], ⟨[("retries", FType.fInt)], []⟩⟩ ∧
    initSettings hostType [("host", Value.vNone)] [] =
      Except.error "Missing required field: host" :=
  ⟨(c10_explicit_none_is_absent retriesType [("retries", Value.vNone)] [] "retries" rfl).1,
   rfl,
   (c10_explicit_none_is_absent hostType [("host", Value.vNone)] [] "host" rfl).2
     [] [] (mkFieldInfo "host" FType.fStr ClassAttr.noAttr) [] []
     rfl rfl rfl (by simp) (by simp) rfl rfl rfl⟩

end MsgspecExt
